import Mathlib

/-!
Verification of the record-store facade in `src/database.py`
(`DatabaseManager`): key normalization in `create_user`, point
lookup/delete, connection setup dispatch and validation, and the
batch migration routine `sync_mongodb_to_hcd`.

Records are Python dicts: association lists from field name to value,
with at most one entry per field name. Backend collections are ordered
lists of records. The external database clients are modelled by
oracles: bulk inserts during migration may fail with an error message
(`insertFail`), and the temporary HCD setup may raise (`hcdSetup`).
-/

namespace DatabaseDemo

/-- A Python scalar value as it appears in a record field. -/
inductive Value where
  | vStr : String → Value
  | vInt : Int → Value
  | vBool : Bool → Value
  | vNull : Value
deriving DecidableEq, Repr

/-- Python truthiness of a value (`bool(v)`). -/
def Value.truthy : Value → Bool
  | .vStr s => !(s == "")
  | .vInt n => !(n == 0)
  | .vBool b => b
  | .vNull => false

/-- Whether a value is a string. -/
def Value.isStr : Value → Bool
  | .vStr _ => true
  | _ => false

/-- Python `str(v)` as used inside an f-string. -/
def Value.pyStr : Value → String
  | .vStr s => s
  | .vInt n => toString n
  | .vBool b => if b then "True" else "False"
  | .vNull => "None"

/-- A record: a Python dict, i.e. an insertion-ordered association list. -/
abbrev Record := List (String × Value)

/-- Dict lookup `d.get(k)` / `d[k]` as an option: the value at the first
(in a dict: only) entry for the field name. -/
def getField (r : Record) (k : String) : Option Value :=
  (List.find? (fun p => p.1 == k) r).map (fun p => p.2)

/-- Dict assignment `d[k] = v`: replaces the entry in place if the field is
present, otherwise appends at the end (Python dict insertion order). -/
def setField : Record → String → Value → Record
  | [], k, v => [(k, v)]
  | p :: ps, k, v => if p.1 == k then (k, v) :: ps else p :: setField ps k v

/-- Python `'_id' not in user_data or not user_data['_id']`:
the key is absent or its value is falsy. -/
def keyMissingOrFalsy (r : Record) : Bool :=
  match getField r "_id" with
  | none => true
  | some v => !v.truthy

/-- The filter `{"_id": user_id}`: the record's `_id` equals the string key. -/
def hasKey (k : String) (r : Record) : Bool :=
  getField r "_id" == some (Value.vStr k)

/-- An operation issued against a backend collection. -/
inductive Op where
  | insertOne : Record → Op
  | insertMany : List Record → Op
deriving DecidableEq, Repr

/-- Key normalization in `create_user`: if `_id` is absent or falsy,
set a freshly generated UUID string `gen` as the `_id`. -/
def ensureId (gen : String) (user_data : Record) : Record :=
  if keyMissingOrFalsy user_data then
    setField user_data "_id" (Value.vStr gen)
  else
    user_data

/-- The facade's `create_user`: normalize the key, insert the record into
the collection, return the record. Result: (new collection contents,
returned record, operations issued against the backend). -/
def create_user (gen : String) (docs : List Record) (user_data : Record) :
    List Record × Record × List Op :=
  let u := ensureId gen user_data
  (docs ++ [u], u, [Op.insertOne u])

/-- The facade's `get_user_by_id`: `find_one({"_id": user_id})`, the first
record matching the key, or absence. -/
def get_user_by_id (docs : List Record) (user_id : String) : Option Record :=
  List.find? (hasKey user_id) docs

/-- MongoDB `delete_one({"_id": user_id})`: remove the first record whose
`_id` equals the key, returning the new contents and the deleted count. -/
def delete_one : List Record → String → List Record × Nat
  | [], _ => ([], 0)
  | r :: rs, k =>
    if hasKey k r then (rs, 1)
    else
      let p := delete_one rs k
      (r :: p.1, p.2)

/-- The facade's `delete_user`: returns `deleted_count > 0` together with
the new collection contents. -/
def delete_user (docs : List Record) (user_id : String) : List Record × Bool :=
  let p := delete_one docs user_id
  (p.1, decide (p.2 > 0))

/-! ### Connection setup (`__init__`, `_setup_connection`, `_setup_mongodb`,
`_setup_hcd`, `_setup_astra`) -/

/-- The environment variables the module reads; `none` models an unset
variable, `some ""` an empty one (both falsy in Python). -/
structure Config where
  database_type : Option String := none
  mongodb_uri : Option String := none
  mongodb_database : Option String := none
  hcd_api_endpoint : Option String := none
  hcd_username : Option String := none
  hcd_password : Option String := none
  hcd_keyspace : Option String := none
  astra_db_id : Option String := none
  astra_db_region : Option String := none
  astra_db_token : Option String := none
  astra_db_keyspace : Option String := none
deriving DecidableEq, Repr

/-- Python truthiness of an optional environment value: unset or empty is
falsy (`not all([...])` treats both as missing). -/
def strTruthy : Option String → Bool
  | none => false
  | some s => !(s == "")

/-- The connection state a successful setup leaves behind. -/
inductive Conn where
  | mongodb : String → String → Conn
  | hcd : String → String → String → String → Conn
  | astra : String → String → String → String → Conn
deriving DecidableEq, Repr

/-- A network call made during setup. -/
inductive NetOp where
  | connectMongo : String → NetOp
  | getDatabase : String → NetOp
  | createKeyspace : String → NetOp
  | createCollection : String → NetOp
  | getCollection : String → NetOp
deriving DecidableEq, Repr

/-- Setup for the `mongodb` backend: reads URI and database name with their
defaults and connects; no validation happens before the connection. -/
def setup_mongodb (cfg : Config) : Except String (Conn × List NetOp) :=
  let uri := cfg.mongodb_uri.getD "mongodb://localhost:27017/"
  let dbName := cfg.mongodb_database.getD "user_profiles"
  .ok (.mongodb uri dbName, [.connectMongo uri])

/-- Setup for the `hcd` backend. The three mandatory values are checked
first; on failure the raised error carries no network call. On success the
keyspace creation is attempted (its failure is swallowed), then collection
creation, falling back to fetching it when creation raises (`collFails`
models the external client raising on `create_collection`). -/
def setup_hcd (collFails : Bool) (cfg : Config) :
    Except String (Conn × List NetOp) :=
  let endpoint := cfg.hcd_api_endpoint
  let username := cfg.hcd_username
  let password := cfg.hcd_password
  let keyspace := cfg.hcd_keyspace.getD "default_keyspace"
  if strTruthy endpoint && strTruthy username && strTruthy password then
    let ops := [NetOp.getDatabase (endpoint.getD ""),
                NetOp.createKeyspace keyspace] ++
      (if collFails then [NetOp.createCollection "users", NetOp.getCollection "users"]
       else [NetOp.createCollection "users"])
    .ok (.hcd (endpoint.getD "") (username.getD "") (password.getD "") keyspace, ops)
  else
    .error "HCD configuration incomplete. Check HCD_API_ENDPOINT, HCD_USERNAME, and HCD_PASSWORD"

/-- Setup for the `astra` backend: the three mandatory values are checked
first; on failure the raised error carries no network call. -/
def setup_astra (cfg : Config) : Except String (Conn × List NetOp) :=
  let dbId := cfg.astra_db_id
  let region := cfg.astra_db_region
  let token := cfg.astra_db_token
  let keyspace := cfg.astra_db_keyspace.getD "default_keyspace"
  if strTruthy dbId && strTruthy region && strTruthy token then
    .ok (.astra (dbId.getD "") (region.getD "") (token.getD "") keyspace,
         [.getDatabase (dbId.getD ""), .getCollection "users"])
  else
    .error "Astra DB configuration incomplete. Check ASTRA_DB_ID, ASTRA_DB_REGION, and ASTRA_DB_TOKEN"

/-- The selector read at construction: `os.getenv('DATABASE_TYPE', 'mongodb')`. -/
def dbTypeOf (cfg : Config) : String :=
  cfg.database_type.getD "mongodb"

/-- The dispatch in `_setup_connection`: exactly one of the three setup
procedures, or a configuration error for an unrecognized selector. -/
def setup_connection (collFails : Bool) (cfg : Config) :
    Except String (Conn × List NetOp) :=
  if dbTypeOf cfg == "mongodb" then setup_mongodb cfg
  else if dbTypeOf cfg == "hcd" then setup_hcd collFails cfg
  else if dbTypeOf cfg == "astra" then setup_astra cfg
  else .error ("Unsupported database type: " ++ dbTypeOf cfg)

/-! ### Migration (`sync_mongodb_to_hcd`)

The external pieces are oracles: `hcdSetup` is the construction of the
temporary destination manager (any exception it raises is caught by the
outer handler), and `insertFail b` is `some msg` when the destination's
`insert_many(b)` raises with message `msg`, `none` when it succeeds. The
second component of the result is the list of bulk inserts issued against
the destination, in order. -/

/-- The migration report: a Python dict whose `synced_count` and `errors`
keys are present only on the normal path (`none` models an absent key). -/
structure SyncResult where
  success : Bool
  message : String
  synced_count : Option Nat
  errors : Option (List String)
deriving DecidableEq, Repr

/-- The fixed batch size of the migration loop. -/
def batch_size : Nat := 100

/-- The per-record error entry
`f"User {b_user.get('_id', 'unknown')}: {str(e)}"`. -/
def errEntry (e : String) (r : Record) : String :=
  "User " ++ (match getField r "_id" with
              | some v => v.pyStr
              | none => "unknown") ++ ": " ++ e

/-- The loop state of `sync_mongodb_to_hcd`: `total_synced`, `errors`, the
pending `batch`, and the bulk inserts issued so far. -/
structure SyncAcc where
  total_synced : Nat
  errors : List String
  batch : List Record
  inserts : List (List Record)
deriving DecidableEq, Repr

/-- Flushing a batch: one `insert_many` attempt; on success the whole batch
counts as synced, on failure every record of the batch becomes an error
entry and none is retried. -/
def flushBatch (insertFail : List Record → Option String) (acc : SyncAcc) :
    SyncAcc :=
  match insertFail acc.batch with
  | none =>
      ⟨acc.total_synced + acc.batch.length, acc.errors, [], acc.inserts ++ [acc.batch]⟩
  | some e =>
      ⟨acc.total_synced, acc.errors ++ acc.batch.map (errEntry e), [],
       acc.inserts ++ [acc.batch]⟩

/-- One iteration of the cursor loop: append the record to the batch and
flush when it reaches `batch_size`. -/
def syncStep (insertFail : List Record → Option String) (acc : SyncAcc)
    (user : Record) : SyncAcc :=
  let acc2 : SyncAcc := ⟨acc.total_synced, acc.errors, acc.batch ++ [user], acc.inserts⟩
  if acc2.batch.length == batch_size then flushBatch insertFail acc2 else acc2

/-- The summary message, reporting the full accumulated error count. -/
def syncMessage (total_synced : Nat) (errors : List String) : String :=
  let m := "Successfully synced " ++ toString total_synced ++ " users to DataStax HCD"
  if errors.isEmpty then m
  else m ++ ". " ++ toString errors.length ++ " users skipped (likely duplicates)"

/-- The migration routine `sync_mongodb_to_hcd`. `db_type` is the calling
manager's selector, `sourceDocs` the records the source cursor yields. -/
def sync_mongodb_to_hcd (db_type : String) (hcdSetup : Except String Unit)
    (sourceDocs : List Record) (insertFail : List Record → Option String) :
    SyncResult × List (List Record) :=
  if !(db_type == "mongodb") then
    (⟨false, "Sync only available from MongoDB", none, none⟩, [])
  else
    match hcdSetup with
    | .error e => (⟨false, "Sync failed: " ++ e, none, none⟩, [])
    | .ok _ =>
      let acc0 : SyncAcc := ⟨0, [], [], []⟩
      let acc1 := sourceDocs.foldl (syncStep insertFail) acc0
      let acc2 := if acc1.batch.isEmpty then acc1 else flushBatch insertFail acc1
      (⟨true, syncMessage acc2.total_synced acc2.errors,
        some acc2.total_synced, some (acc2.errors.take 5)⟩, acc2.inserts)

/-! ### Batch-level view of the migration loop -/

/-- The consecutive chunks of size `n` of a list (the last one possibly
shorter). -/
def chunksOf (n : Nat) (l : List Record) : List (List Record) :=
  if h : n = 0 ∨ l = [] then [] else l.take n :: chunksOf n (l.drop n)
termination_by l.length
decreasing_by
  push_neg at h
  simp only [List.length_drop]
  exact Nat.sub_lt (List.length_pos.mpr h.2) (Nat.pos_of_ne_zero h.1)

/-- The error entries accumulated over a list of batches: each failing
batch contributes one entry per record, succeeding batches none. -/
def chunkErrors (insertFail : List Record → Option String) :
    List (List Record) → List String
  | [] => []
  | b :: bs =>
      (match insertFail b with
       | some e => b.map (errEntry e)
       | none => []) ++ chunkErrors insertFail bs

/-- The synced count over a list of batches: each succeeding batch
contributes its length, failing batches nothing. -/
def chunkSynced (insertFail : List Record → Option String) :
    List (List Record) → Nat
  | [] => 0
  | b :: bs =>
      (match insertFail b with
       | some _ => 0
       | none => b.length) + chunkSynced insertFail bs

/-- A source collection of `n` distinct records keyed `"0"`, …, used as a
concrete migration scenario. -/
def mkDocs (n : Nat) : List Record :=
  (List.range n).map (fun i => [("_id", Value.vStr (toString i))])

/-- The piece of `mkDocs` over the index range starting at `a`, of length
`n` — the migration batches of `mkDocs (a + n)` are such pieces. -/
def mkDocsFrom (a n : Nat) : List Record :=
  (List.range' a n).map (fun i => [("_id", Value.vStr (toString i))])

/-- An `insert_many` oracle that never fails. -/
def noFail : List Record → Option String := fun _ => none

/-- An `insert_many` oracle that fails, with message `msg`, exactly on the
batches containing a record whose key is `k` (modelling a duplicate of an
existing destination key). -/
def failOnKey (k : String) (msg : String) : List Record → Option String :=
  fun b => if b.any (hasKey k) then some msg else none

/-! ## Helper lemmas on records -/

lemma getField_nil (k : String) : getField [] k = none := rfl

lemma getField_cons (p : String × Value) (ps : Record) (k : String) :
    getField (p :: ps) k = if p.1 = k then some p.2 else getField ps k := by
  by_cases h : p.1 = k
  · simp [getField, List.find?_cons_of_pos, h]
  · rw [if_neg h]
    unfold getField
    rw [List.find?_cons_of_neg]
    simpa using h

lemma getField_setField_self (r : Record) (k : String) (v : Value) :
    getField (setField r k v) k = some v := by
  induction r with
  | nil => simp [setField, getField_cons]
  | cons p ps ih =>
    by_cases h : p.1 = k
    · simp only [setField, h, beq_self_eq_true, if_true]
      simp [getField_cons]
    · simp only [setField, beq_iff_eq, h, if_false]
      rw [getField_cons, if_neg h]
      exact ih

lemma getField_setField_ne (r : Record) (k k' : String) (v : Value)
    (hne : k' ≠ k) : getField (setField r k v) k' = getField r k' := by
  have hkk : ¬ k = k' := fun h => hne h.symm
  induction r with
  | nil => simp [setField, getField_cons, getField_nil, hkk]
  | cons p ps ih =>
    by_cases h : p.1 = k
    · have hpk : ¬ p.1 = k' := by rw [h]; exact hkk
      simp only [setField, h, beq_self_eq_true, if_true]
      rw [getField_cons, if_neg hkk, getField_cons, if_neg hpk]
    · simp only [setField, beq_iff_eq, h, if_false]
      rw [getField_cons, getField_cons, ih]

lemma setField_keys (r : Record) (k : String) (v : Value) :
    (setField r k v).map Prod.fst =
      if List.any r (fun p => p.1 == k) then r.map Prod.fst
      else r.map Prod.fst ++ [k] := by
  induction r with
  | nil => simp [setField]
  | cons p ps ih =>
    by_cases h : p.1 = k
    · simp [setField, h]
    · simp only [setField, beq_iff_eq, h, if_false, List.map_cons, List.any_cons, ih]
      by_cases hany : List.any ps (fun p => p.1 == k)
      · simp [hany, h]
      · simp [hany, h]

lemma getField_isSome_iff (r : Record) (k : String) :
    (getField r k).isSome = true ↔ k ∈ r.map Prod.fst := by
  induction r with
  | nil => simp [getField]
  | cons p ps ih =>
    by_cases h : p.1 = k
    · simp [getField, h]
    · simpa [getField, h, Ne.symm h] using ih

lemma getField_eq_none_iff (r : Record) (k : String) :
    getField r k = none ↔ ¬ k ∈ r.map Prod.fst := by
  rw [← getField_isSome_iff]
  cases getField r k <;> simp

/-! ## Claim C3 -/

/-- C3 (as stated) is false: a caller-supplied truthy key is stored
unchanged, even when it is not a string. `create_user` with the record
`{"_id": 42}` stores `42`, an integer, as the key. -/
theorem create_user_nonstring_key :
    getField (create_user "gen" [] [("_id", Value.vInt 42)]).2.1 "_id" =
        some (Value.vInt 42) ∧
      Value.isStr (Value.vInt 42) = false := by
  constructor <;> rfl

/-- C3 (amended): every record stored via `create_user` carries exactly one
key field; the key's value is a string whenever the facade generates it
(key absent or falsy), while a caller-supplied truthy key is stored as-is,
whatever its type. -/
theorem create_user_key_invariant (gen : String) (docs : List Record)
    (data : Record) (hwf : (data.map Prod.fst).Nodup) :
    ((create_user gen docs data).2.1.map Prod.fst).count "_id" = 1 ∧
    (keyMissingOrFalsy data = true →
      getField (create_user gen docs data).2.1 "_id" = some (Value.vStr gen)) := by
  constructor
  · show ((ensureId gen data).map Prod.fst).count "_id" = 1
    unfold ensureId
    by_cases hmiss : keyMissingOrFalsy data = true
    · rw [if_pos hmiss, setField_keys]
      by_cases hany : List.any data (fun p => p.1 == "_id")
      · rw [if_pos hany]
        have hmem : "_id" ∈ data.map Prod.fst := by
          rw [List.any_eq_true] at hany
          obtain ⟨p, hp, hpk⟩ := hany
          exact List.mem_map.mpr ⟨p, hp, by simpa using hpk⟩
        have h1 : 0 < (data.map Prod.fst).count "_id" :=
          List.count_pos_iff.mpr hmem
        have h2 : (data.map Prod.fst).count "_id" ≤ 1 :=
          List.nodup_iff_count_le_one.mp hwf "_id"
        omega
      · rw [if_neg hany, List.count_append]
        have hmem : "_id" ∉ data.map Prod.fst := by
          intro hmem
          obtain ⟨p, hp, hpk⟩ := List.mem_map.mp hmem
          exact hany (List.any_eq_true.mpr ⟨p, hp, by simpa using hpk⟩)
        simp [List.count_eq_zero_of_not_mem hmem]
    · rw [if_neg hmiss]
      have hsome : (getField data "_id").isSome = true := by
        unfold keyMissingOrFalsy at hmiss
        cases h : getField data "_id" with
        | none => rw [h] at hmiss; simp at hmiss
        | some v => simp
      have hmem : "_id" ∈ data.map Prod.fst := (getField_isSome_iff data "_id").mp hsome
      have h1 : 0 < (data.map Prod.fst).count "_id" :=
        List.count_pos_iff.mpr hmem
      have h2 : (data.map Prod.fst).count "_id" ≤ 1 :=
        List.nodup_iff_count_le_one.mp hwf "_id"
      omega
  · intro hmiss
    show getField (ensureId gen data) "_id" = some (Value.vStr gen)
    unfold ensureId
    rw [if_pos hmiss]
    exact getField_setField_self data "_id" (Value.vStr gen)

/-- C3 witness: the amended invariant at the concrete no-key input
`{"name": "bob"}`. -/
theorem create_user_key_invariant_witness :
    (((create_user "u1" [] [("name", Value.vStr "bob")]).2.1.map Prod.fst).count "_id" = 1) ∧
    (getField (create_user "u1" [] [("name", Value.vStr "bob")]).2.1 "_id" =
      some (Value.vStr "u1")) := by
  have h := create_user_key_invariant "u1" [] [("name", Value.vStr "bob")] (by decide)
  exact ⟨h.1, h.2 (by decide)⟩

/-! ## Claim C6 -/

/-- C6: `create_user` returns the input record with a key guaranteed —
generated (the fresh identifier `gen`) exactly when the key was absent or
falsy, otherwise unchanged — all non-key fields are untouched, exactly one
`insert_one` of the returned record is issued, and two no-key inserts
whose generated identifiers differ (uuid4 freshness) never receive the
same key. -/
theorem create_user_spec (gen gen2 : String) (docs docs2 : List Record)
    (data data2 : Record) (hfresh : gen ≠ gen2) :
    (create_user gen docs data).2.2 = [Op.insertOne (create_user gen docs data).2.1] ∧
    (create_user gen docs data).1 = docs ++ [(create_user gen docs data).2.1] ∧
    ((getField (create_user gen docs data).2.1 "_id").isSome = true) ∧
    (keyMissingOrFalsy data = true →
      getField (create_user gen docs data).2.1 "_id" = some (Value.vStr gen)) ∧
    (keyMissingOrFalsy data = false → (create_user gen docs data).2.1 = data) ∧
    (∀ k, k ≠ "_id" → getField (create_user gen docs data).2.1 k = getField data k) ∧
    (keyMissingOrFalsy data = true → keyMissingOrFalsy data2 = true →
      getField (create_user gen docs data).2.1 "_id" ≠
        getField (create_user gen2 docs2 data2).2.1 "_id") := by
  have hgen : ∀ (g : String) (d : Record), keyMissingOrFalsy d = true →
      getField (create_user g docs d).2.1 "_id" = some (Value.vStr g) := by
    intro g d hm
    show getField (ensureId g d) "_id" = some (Value.vStr g)
    unfold ensureId
    rw [if_pos hm]
    exact getField_setField_self d "_id" (Value.vStr g)
  refine ⟨rfl, rfl, ?_, hgen gen data, ?_, ?_, ?_⟩
  · show (getField (ensureId gen data) "_id").isSome = true
    unfold ensureId
    by_cases hm : keyMissingOrFalsy data = true
    · rw [if_pos hm, getField_setField_self]
      rfl
    · rw [if_neg hm]
      unfold keyMissingOrFalsy at hm
      cases h : getField data "_id" with
      | none => rw [h] at hm; simp at hm
      | some v => rfl
  · intro hm
    show ensureId gen data = data
    unfold ensureId
    rw [if_neg (by simp [hm])]
  · intro k hk
    show getField (ensureId gen data) k = getField data k
    unfold ensureId
    by_cases hm : keyMissingOrFalsy data = true
    · rw [if_pos hm]
      exact getField_setField_ne data "_id" k (Value.vStr gen) hk
    · rw [if_neg hm]
  · intro hm hm2
    rw [hgen gen data hm]
    have h2 : getField (create_user gen2 docs2 data2).2.1 "_id" =
        some (Value.vStr gen2) := by
      show getField (ensureId gen2 data2) "_id" = some (Value.vStr gen2)
      unfold ensureId
      rw [if_pos hm2]
      exact getField_setField_self data2 "_id" (Value.vStr gen2)
    rw [h2]
    intro hc
    exact hfresh (by injection hc with hc1; injection hc1)

/-- C6 witness: two concrete no-key inserts with distinct fresh
identifiers receive distinct keys, and the first insert issues exactly one
`insert_one` of the returned record carrying the generated key. -/
theorem create_user_spec_witness :
    (create_user "u1" [] [("name", Value.vStr "a")]).2.2 =
      [Op.insertOne (create_user "u1" [] [("name", Value.vStr "a")]).2.1] ∧
    getField (create_user "u1" [] [("name", Value.vStr "a")]).2.1 "_id" =
      some (Value.vStr "u1") ∧
    getField (create_user "u1" [] [("name", Value.vStr "a")]).2.1 "_id" ≠
      getField (create_user "u2" [] [("name", Value.vStr "b")]).2.1 "_id" := by
  have h := create_user_spec "u1" "u2" [] [] [("name", Value.vStr "a")]
    [("name", Value.vStr "b")] (by decide)
  exact ⟨h.1, h.2.2.2.1 (by decide), h.2.2.2.2.2.2 (by decide) (by decide)⟩

/-! ## Claim C7 -/

lemma delete_one_count_le (docs : List Record) (k : String) :
    (delete_one docs k).2 ≤ 1 := by
  induction docs with
  | nil => simp [delete_one]
  | cons r rs ih =>
    by_cases h : hasKey k r
    · simp [delete_one, h]
    · simpa [delete_one, h] using ih

lemma delete_one_length (docs : List Record) (k : String) :
    (delete_one docs k).1.length + (delete_one docs k).2 = docs.length := by
  induction docs with
  | nil => simp [delete_one]
  | cons r rs ih =>
    by_cases h : hasKey k r
    · simp [delete_one, h]
    · simp only [delete_one, h, Bool.false_eq_true, if_false, List.length_cons]
      omega

lemma delete_one_pos_iff (docs : List Record) (k : String) :
    0 < (delete_one docs k).2 ↔ ∃ r ∈ docs, hasKey k r = true := by
  induction docs with
  | nil => simp [delete_one]
  | cons r rs ih =>
    by_cases h : hasKey k r
    · simp [delete_one, h]
    · simpa [delete_one, h] using ih

lemma delete_one_zero_unchanged (docs : List Record) (k : String)
    (hz : (delete_one docs k).2 = 0) : (delete_one docs k).1 = docs := by
  induction docs with
  | nil => simp [delete_one]
  | cons r rs ih =>
    by_cases h : hasKey k r
    · simp [delete_one, h] at hz
    · simp only [delete_one, h, Bool.false_eq_true, if_false] at hz ⊢
      rw [ih hz]

lemma delete_one_filter (docs : List Record) (k : String) :
    ((delete_one docs k).1.filter (hasKey k)).length + (delete_one docs k).2 =
      (docs.filter (hasKey k)).length := by
  induction docs with
  | nil => simp [delete_one]
  | cons r rs ih =>
    by_cases h : hasKey k r
    · simp [delete_one, h, List.filter_cons]
    · simp only [delete_one, h, Bool.false_eq_true, if_false, List.filter_cons]
      simpa [h] using ih

lemma filter_pos_of_exists {l : List Record} {k : String}
    (h : ∃ r ∈ l, hasKey k r = true) : 0 < (l.filter (hasKey k)).length := by
  obtain ⟨r, hr, hk⟩ := h
  have : r ∈ l.filter (hasKey k) := List.mem_filter.mpr ⟨hr, hk⟩
  exact List.length_pos.mpr (List.ne_nil_of_mem this)

/-- C7: `delete_user` removes at most one record (the collection shrinks by
one exactly when it returns true, and is unchanged when it returns false);
it returns true if and only if a record with the key exists; and — the
backend keeping keys unique — after a successful delete a second call with
the same key returns false. -/
theorem delete_user_spec (docs : List Record) (k : String)
    (huniq : (docs.filter (hasKey k)).length ≤ 1) :
    ((delete_user docs k).2 = true ↔ ∃ r ∈ docs, hasKey k r = true) ∧
    ((delete_user docs k).2 = true →
      (delete_user docs k).1.length + 1 = docs.length) ∧
    ((delete_user docs k).2 = false → (delete_user docs k).1 = docs) ∧
    (delete_user (delete_user docs k).1 k).2 = false := by
  have hle := delete_one_count_le docs k
  have hlen := delete_one_length docs k
  have hpos := delete_one_pos_iff docs k
  refine ⟨?_, ?_, ?_, ?_⟩
  · rw [← hpos]
    simp [delete_user]
  · intro ht
    have h1 : (delete_one docs k).2 = 1 := by
      simp only [delete_user, decide_eq_true_eq] at ht
      omega
    simp only [delete_user]
    omega
  · intro hf
    have h0 : (delete_one docs k).2 = 0 := by
      simp only [delete_user, decide_eq_false_iff_not] at hf
      omega
    exact delete_one_zero_unchanged docs k h0
  · have hfil := delete_one_filter docs k
    by_cases hz : (delete_one docs k).2 = 0
    · -- nothing was deleted: the remainder is docs and the second call
      -- deletes the same zero records
      have hun := delete_one_zero_unchanged docs k hz
      simp only [delete_user, hun, decide_eq_false_iff_not]
      omega
    · -- one record was deleted: no match remains in the remainder
      have h1 : (delete_one docs k).2 = 1 := by omega
      have hnone : ((delete_one docs k).1.filter (hasKey k)).length = 0 := by
        omega
      have hnomatch : ¬ ∃ r ∈ (delete_one docs k).1, hasKey k r = true := by
        intro hex
        have := filter_pos_of_exists hex
        omega
      simp only [delete_user, decide_eq_false_iff_not]
      rw [← delete_one_pos_iff] at hnomatch
      omega

/-- C7 witness: over a two-record collection with unique keys, deleting
key `"a"` succeeds, shrinks the collection by one, and a second delete of
`"a"` returns false. -/
theorem delete_user_spec_witness :
    ((delete_user [[("_id", Value.vStr "a")], [("_id", Value.vStr "b")]] "a").2 = true ↔
      ∃ r ∈ [[("_id", Value.vStr "a")], [("_id", Value.vStr "b")]], hasKey "a" r = true) ∧
    (delete_user (delete_user [[("_id", Value.vStr "a")], [("_id", Value.vStr "b")]] "a").1 "a").2 = false := by
  have h := delete_user_spec [[("_id", Value.vStr "a")], [("_id", Value.vStr "b")]] "a"
    (by decide)
  exact ⟨h.1, h.2.2.2⟩

/-! ## Claim C8 -/

/-- C8: `get_user_by_id` returns absence exactly when no record carries the
key (never an error — the operation is total and yields an explicit
option), and whenever it returns a record, that record is in the
collection and carries the key. -/
theorem get_user_by_id_spec (docs : List Record) (user_id : String) :
    (get_user_by_id docs user_id = none ↔ ∀ r ∈ docs, hasKey user_id r = false) ∧
    (∀ r, get_user_by_id docs user_id = some r →
      r ∈ docs ∧ hasKey user_id r = true) := by
  constructor
  · rw [get_user_by_id, List.find?_eq_none]
    constructor
    · intro h r hr
      simpa using h r hr
    · intro h r hr
      simp [h r hr]
  · intro r h
    exact ⟨List.mem_of_find?_eq_some h, List.find?_some h⟩

/-! ## The migration loop, batch by batch

`foldl (syncStep iF)` over the source cursor followed by the final flush
is shown equal to processing the consecutive `batch_size`-chunks of the
source: each chunk is bulk-inserted once, a succeeding chunk adds its
length to the synced count, a failing chunk adds one error entry per
record. -/

lemma batch_size_pos : 0 < batch_size := by decide

lemma foldl_syncStep_peel (iF : List Record → Option String) :
    ∀ (docs : List Record) (s : Nat) (e : List String)
      (ins : List (List Record)) (b : List Record), b.length < batch_size →
      List.foldl (syncStep iF) ⟨s, e, b, ins⟩ docs =
        if b.length + docs.length < batch_size then ⟨s, e, b ++ docs, ins⟩
        else
          List.foldl (syncStep iF)
            (flushBatch iF ⟨s, e, b ++ docs.take (batch_size - b.length), ins⟩)
            (docs.drop (batch_size - b.length)) := by
  intro docs
  induction docs with
  | nil =>
    intro s e ins b hb
    simp [hb]
  | cons d ds ih =>
    intro s e ins b hb
    rw [List.foldl_cons]
    have hstep : syncStep iF ⟨s, e, b, ins⟩ d =
        if (b ++ [d]).length == batch_size then flushBatch iF ⟨s, e, b ++ [d], ins⟩
        else ⟨s, e, b ++ [d], ins⟩ := rfl
    by_cases hfull : b.length + 1 = batch_size
    · have hcond : ((b ++ [d]).length == batch_size) = true := by
        simp [List.length_append, hfull]
      rw [hstep, if_pos hcond]
      have hnot : ¬ b.length + (d :: ds).length < batch_size := by
        simp only [List.length_cons]
        omega
      rw [if_neg hnot]
      have h1 : batch_size - b.length = 1 := by omega
      rw [h1]
      simp
    · have hlt : b.length + 1 < batch_size := by omega
      have hcond : ((b ++ [d]).length == batch_size) = false := by
        simp only [List.length_append, List.length_singleton, beq_eq_false_iff_ne]
        omega
      rw [hstep]
      simp only [hcond, Bool.false_eq_true, if_false]
      rw [ih s e ins (b ++ [d]) (by simpa using hlt)]
      have hlen1 : (b ++ [d]).length = b.length + 1 := by simp
      by_cases hsmall : b.length + (d :: ds).length < batch_size
      · have hs1 : (b ++ [d]).length + ds.length < batch_size := by
          rw [hlen1]
          simp only [List.length_cons] at hsmall
          omega
        rw [if_pos hs1, if_pos hsmall]
        simp
      · have hs1 : ¬ (b ++ [d]).length + ds.length < batch_size := by
          rw [hlen1]
          simp only [List.length_cons] at hsmall
          omega
        rw [if_neg hs1, if_neg hsmall]
        have h2 : batch_size - b.length = (batch_size - (b ++ [d]).length) + 1 := by
          rw [hlen1]
          omega
        rw [h2]
        simp only [List.take_succ_cons, List.drop_succ_cons]
        simp [List.append_assoc]

lemma chunksOf_nil (n : Nat) : chunksOf n [] = [] := by
  rw [chunksOf]
  simp

lemma chunksOf_eq (n : Nat) (l : List Record) (hn : n ≠ 0) (hl : l ≠ []) :
    chunksOf n l = l.take n :: chunksOf n (l.drop n) := by
  rw [chunksOf]
  rw [dif_neg (by simp [hn, hl])]

lemma syncAll_char (iF : List Record → Option String) :
    ∀ (fuel : Nat) (docs : List Record), docs.length ≤ fuel →
    ∀ (s : Nat) (e : List String) (ins : List (List Record)),
      (let acc1 := List.foldl (syncStep iF) ⟨s, e, [], ins⟩ docs
       if acc1.batch.isEmpty then acc1 else flushBatch iF acc1) =
        ⟨s + chunkSynced iF (chunksOf batch_size docs),
         e ++ chunkErrors iF (chunksOf batch_size docs), [],
         ins ++ chunksOf batch_size docs⟩ := by
  intro fuel
  induction fuel with
  | zero =>
    intro docs hd s e ins
    have : docs = [] := List.eq_nil_of_length_eq_zero (Nat.le_zero.mp hd)
    subst this
    simp [chunksOf_nil, chunkSynced, chunkErrors]
  | succ n ih =>
    intro docs hd s e ins
    by_cases hnil : docs = []
    · subst hnil
      simp [chunksOf_nil, chunkSynced, chunkErrors]
    · have hpeel := foldl_syncStep_peel iF docs s e ins []
        (by simpa using batch_size_pos)
      simp only [List.length_nil, List.nil_append, Nat.zero_add,
        Nat.sub_zero] at hpeel
      rw [chunksOf_eq batch_size docs (by decide) hnil]
      by_cases hsmall : docs.length < batch_size
      · -- a single partial chunk, flushed after the loop
        rw [if_pos hsmall] at hpeel
        have htake : docs.take batch_size = docs := List.take_of_length_le (le_of_lt hsmall)
        have hdrop : docs.drop batch_size = [] := List.drop_eq_nil_of_le (le_of_lt hsmall)
        rw [htake, hdrop, chunksOf_nil]
        simp only [hpeel]
        have hbe : (SyncAcc.mk s e docs ins).batch.isEmpty = false := by
          simpa [List.isEmpty_iff] using hnil
        rw [if_neg (by simp [hbe, hnil])]
        cases hif : iF docs with
        | none =>
          simp [flushBatch, hif, chunkSynced, chunkErrors]
        | some er =>
          simp [flushBatch, hif, chunkSynced, chunkErrors]
      · -- a full first chunk flushed inside the loop, then the rest
        rw [if_neg hsmall] at hpeel
        rw [hpeel]
        have hdlen : (docs.drop batch_size).length ≤ n := by
          rw [List.length_drop]
          have h0 : 0 < docs.length := List.length_pos.mpr hnil
          have hbs : 0 < batch_size := batch_size_pos
          omega
        cases hif : iF (docs.take batch_size) with
        | none =>
          have hflush : flushBatch iF ⟨s, e, docs.take batch_size, ins⟩ =
              ⟨s + (docs.take batch_size).length, e, [], ins ++ [docs.take batch_size]⟩ := by
            simp [flushBatch, hif]
          rw [hflush, ih (docs.drop batch_size) hdlen]
          simp [chunkSynced, chunkErrors, hif, Nat.add_assoc]
        | some er =>
          have hflush : flushBatch iF ⟨s, e, docs.take batch_size, ins⟩ =
              ⟨s, e ++ (docs.take batch_size).map (errEntry er), [],
               ins ++ [docs.take batch_size]⟩ := by
            simp [flushBatch, hif]
          rw [hflush, ih (docs.drop batch_size) hdlen]
          simp [chunkSynced, chunkErrors, hif]

/-- The migration, on the normal path, equals its batch-by-batch
description: the bulk inserts issued are exactly the consecutive
`batch_size`-chunks of the source, the synced count and error entries come
chunk-wise from the `insert_many` oracle, and the report truncates the
errors to the first 5. -/
lemma sync_run_eq (iF : List Record → Option String) (docs : List Record) :
    sync_mongodb_to_hcd "mongodb" (Except.ok ()) docs iF =
      (⟨true,
        syncMessage (chunkSynced iF (chunksOf batch_size docs))
          (chunkErrors iF (chunksOf batch_size docs)),
        some (chunkSynced iF (chunksOf batch_size docs)),
        some ((chunkErrors iF (chunksOf batch_size docs)).take 5)⟩,
       chunksOf batch_size docs) := by
  have h := syncAll_char iF docs.length docs le_rfl 0 [] []
  simp only [Nat.zero_add, List.nil_append] at h
  simp only [sync_mongodb_to_hcd, beq_self_eq_true, Bool.not_true,
    Bool.false_eq_true, if_false, h]

/-! ## Chunk structure lemmas -/

lemma chunksOf_ne_nil_src {l : List Record} (h : chunksOf batch_size l ≠ []) :
    l ≠ [] := by
  intro hl
  subst hl
  exact h (chunksOf_nil batch_size)

lemma chunksOf_flatten : ∀ (fuel : Nat) (l : List Record), l.length ≤ fuel →
    (chunksOf batch_size l).flatten = l := by
  intro fuel
  induction fuel with
  | zero =>
    intro l hl
    have : l = [] := List.eq_nil_of_length_eq_zero (Nat.le_zero.mp hl)
    subst this
    simp [chunksOf_nil]
  | succ n ih =>
    intro l hl
    by_cases hnil : l = []
    · subst hnil
      simp [chunksOf_nil]
    · rw [chunksOf_eq batch_size l (by decide) hnil]
      rw [List.flatten_cons]
      have hdlen : (l.drop batch_size).length ≤ n := by
        rw [List.length_drop]
        have h0 : 0 < l.length := List.length_pos.mpr hnil
        have hbs : 0 < batch_size := batch_size_pos
        omega
      rw [ih (l.drop batch_size) hdlen]
      exact List.take_append_drop batch_size l

lemma chunksOf_mem_len : ∀ (fuel : Nat) (l : List Record), l.length ≤ fuel →
    ∀ c ∈ chunksOf batch_size l, c ≠ [] ∧ c.length ≤ batch_size := by
  intro fuel
  induction fuel with
  | zero =>
    intro l hl c hc
    have : l = [] := List.eq_nil_of_length_eq_zero (Nat.le_zero.mp hl)
    subst this
    rw [chunksOf_nil] at hc
    simp at hc
  | succ n ih =>
    intro l hl c hc
    by_cases hnil : l = []
    · subst hnil
      rw [chunksOf_nil] at hc
      simp at hc
    · rw [chunksOf_eq batch_size l (by decide) hnil] at hc
      rcases List.mem_cons.mp hc with hc | hc
      · subst hc
        constructor
        · have h0 : 0 < l.length := List.length_pos.mpr hnil
          have hbs : 0 < batch_size := batch_size_pos
          have : 0 < (l.take batch_size).length := by
            rw [List.length_take]
            omega
          exact List.ne_nil_of_length_pos this
        · rw [List.length_take]
          omega
      · have hdlen : (l.drop batch_size).length ≤ n := by
          rw [List.length_drop]
          have h0 : 0 < l.length := List.length_pos.mpr hnil
          have hbs : 0 < batch_size := batch_size_pos
          omega
        exact ih (l.drop batch_size) hdlen c hc

lemma chunksOf_dropLast_len : ∀ (fuel : Nat) (l : List Record),
    l.length ≤ fuel →
    ∀ c ∈ (chunksOf batch_size l).dropLast, c.length = batch_size := by
  intro fuel
  induction fuel with
  | zero =>
    intro l hl c hc
    have : l = [] := List.eq_nil_of_length_eq_zero (Nat.le_zero.mp hl)
    subst this
    rw [chunksOf_nil] at hc
    simp at hc
  | succ n ih =>
    intro l hl c hc
    by_cases hnil : l = []
    · subst hnil
      rw [chunksOf_nil] at hc
      simp at hc
    · rw [chunksOf_eq batch_size l (by decide) hnil] at hc
      by_cases hrest : chunksOf batch_size (l.drop batch_size) = []
      · rw [hrest] at hc
        simp at hc
      · rw [List.dropLast_cons_of_ne_nil hrest] at hc
        have hdlen : (l.drop batch_size).length ≤ n := by
          rw [List.length_drop]
          have h0 : 0 < l.length := List.length_pos.mpr hnil
          have hbs : 0 < batch_size := batch_size_pos
          omega
        rcases List.mem_cons.mp hc with hc | hc
        · subst hc
          have hlong : batch_size ≤ l.length := by
            by_contra hshort
            push_neg at hshort
            have : l.drop batch_size = [] := List.drop_eq_nil_of_le (le_of_lt hshort)
            rw [this, chunksOf_nil] at hrest
            exact hrest rfl
          rw [List.length_take]
          omega
        · exact ih (l.drop batch_size) hdlen c hc

lemma chunk_accounting (iF : List Record → Option String) :
    ∀ (cs : List (List Record)),
      chunkSynced iF cs + (chunkErrors iF cs).length = cs.flatten.length := by
  intro cs
  induction cs with
  | nil => simp [chunkSynced, chunkErrors]
  | cons b bs ih =>
    cases hif : iF b with
    | none =>
      simp only [chunkSynced, chunkErrors, hif, List.flatten_cons,
        List.length_append, List.nil_append]
      omega
    | some er =>
      simp only [chunkSynced, chunkErrors, hif, List.flatten_cons,
        List.length_append, List.length_map, Nat.zero_add]
      omega

/-! ## Claim C9 -/

/-- C9: an unrecognized backend selector makes construction fail
immediately with the configuration error (`Except.error` carries no
connection state and no network call); for the compat-service backends
(`hcd`, `astra`), a missing or empty value among the three mandatory
settings makes setup fail fast with the descriptive error naming the
settings, before any network call (the error result carries no `NetOp`). -/
theorem setup_validation_spec (cfg : Config) (collFails : Bool) :
    (dbTypeOf cfg ∉ (["mongodb", "hcd", "astra"] : List String) →
      setup_connection collFails cfg =
        .error ("Unsupported database type: " ++ dbTypeOf cfg)) ∧
    (dbTypeOf cfg = "hcd" →
      (strTruthy cfg.hcd_api_endpoint && strTruthy cfg.hcd_username &&
        strTruthy cfg.hcd_password) = false →
      setup_connection collFails cfg =
        .error "HCD configuration incomplete. Check HCD_API_ENDPOINT, HCD_USERNAME, and HCD_PASSWORD") ∧
    (dbTypeOf cfg = "astra" →
      (strTruthy cfg.astra_db_id && strTruthy cfg.astra_db_region &&
        strTruthy cfg.astra_db_token) = false →
      setup_connection collFails cfg =
        .error "Astra DB configuration incomplete. Check ASTRA_DB_ID, ASTRA_DB_REGION, and ASTRA_DB_TOKEN") := by
  refine ⟨?_, ?_, ?_⟩
  · intro hun
    simp only [List.mem_cons, List.mem_singleton, not_or] at hun
    obtain ⟨h1, h2, h3⟩ := hun
    simp [setup_connection, h1, h2, h3]
  · intro hty hmiss
    simp [setup_connection, setup_hcd, hty, hmiss]
  · intro hty hmiss
    simp [setup_connection, setup_astra, hty, hmiss]

/-- C9 witness: the selector `"postgres"` is rejected with its
configuration error, and an `hcd` configuration missing the password fails
with the descriptive error. -/
theorem setup_validation_spec_witness :
    setup_connection false { database_type := some "postgres" } =
      .error "Unsupported database type: postgres" ∧
    setup_connection false
        { database_type := some "hcd", hcd_api_endpoint := some "http://x", hcd_username := some "u" } =
      .error "HCD configuration incomplete. Check HCD_API_ENDPOINT, HCD_USERNAME, and HCD_PASSWORD" := by
  refine ⟨?_, ?_⟩
  · exact (setup_validation_spec { database_type := some "postgres" } false).1 (by decide)
  · exact (setup_validation_spec
      { database_type := some "hcd", hcd_api_endpoint := some "http://x", hcd_username := some "u" }
      false).2.1 (by decide) (by decide)

/-! ## Claim C1 -/

/-- C1 (as stated) is false in one detail: the early failure result of a
migration invoked on a non-`mongodb` facade carries no `synced_count`
field at all (the returned dict is
`{"success": False, "message": ...}`), so its `synced_count` is not 0 —
it is absent. -/
theorem sync_wrong_backend_counterexample :
    (sync_mongodb_to_hcd "hcd" (Except.ok ()) [] noFail).1.synced_count ≠
      some 0 := by
  decide

/-- C1 (amended): migration invoked on a facade whose selector is not
`mongodb` returns the failure result immediately — success=false, the
fixed message, and no `synced_count` or `errors` fields — with no side
effects: the result does not depend on the source records (none is read)
and no bulk insert is issued against the destination. -/
theorem sync_wrong_backend (db_type : String) (hdb : db_type ≠ "mongodb")
    (hcdSetup : Except String Unit) (sourceDocs : List Record)
    (insertFail : List Record → Option String) :
    sync_mongodb_to_hcd db_type hcdSetup sourceDocs insertFail =
      (⟨false, "Sync only available from MongoDB", none, none⟩, []) := by
  simp [sync_mongodb_to_hcd, hdb]

/-- C1 witness: the early failure at the concrete selector `"hcd"`. -/
theorem sync_wrong_backend_witness :
    sync_mongodb_to_hcd "hcd" (Except.ok ()) [[("_id", Value.vStr "a")]] noFail =
      (⟨false, "Sync only available from MongoDB", none, none⟩, []) :=
  sync_wrong_backend "hcd" (by decide) (Except.ok ()) [[("_id", Value.vStr "a")]] noFail

/-! ## Claim C2 -/

/-- C2 (as stated) is false in two details, both visible on the
wrong-backend invocation: the failure result carries no `synced_count`
and no `errors` field (so not every result has the four-field shape), and
its success flag is false although no exception escaped the procedure. -/
theorem sync_result_shape_counterexample :
    (sync_mongodb_to_hcd "astra" (Except.ok ()) [] noFail).1.success = false ∧
    (sync_mongodb_to_hcd "astra" (Except.ok ()) [] noFail).1.errors = none ∧
    (sync_mongodb_to_hcd "astra" (Except.ok ()) [] noFail).1.synced_count =
      none := by
  decide

/-- C2 (amended): migration always returns a structured result and never
raises (the model is a total function into `SyncResult`). On the normal
path the result carries success=true, a message, a synced count, and an
error list of at most 5 entries; when the source-backend check fails or an
exception escapes the procedure, the result carries success=false and a
message only (no `synced_count`, no `errors`), the message holding the
exception text in the escaped-exception case. -/
theorem sync_result_shape (db_type : String) (hcdSetup : Except String Unit)
    (sourceDocs : List Record) (insertFail : List Record → Option String) :
    ((sync_mongodb_to_hcd db_type hcdSetup sourceDocs insertFail).1.success = true →
      db_type = "mongodb" ∧
      (∃ n, (sync_mongodb_to_hcd db_type hcdSetup sourceDocs insertFail).1.synced_count = some n) ∧
      (∃ es, (sync_mongodb_to_hcd db_type hcdSetup sourceDocs insertFail).1.errors = some es ∧
        es.length ≤ 5)) ∧
    ((sync_mongodb_to_hcd db_type hcdSetup sourceDocs insertFail).1.success = false →
      (sync_mongodb_to_hcd db_type hcdSetup sourceDocs insertFail).1.synced_count = none ∧
      (sync_mongodb_to_hcd db_type hcdSetup sourceDocs insertFail).1.errors = none) ∧
    (∀ e, db_type = "mongodb" → hcdSetup = .error e →
      (sync_mongodb_to_hcd db_type hcdSetup sourceDocs insertFail).1 =
        ⟨false, "Sync failed: " ++ e, none, none⟩) := by
  by_cases hdb : db_type = "mongodb"
  · subst hdb
    cases hcdSetup with
    | error e =>
      have hq : sync_mongodb_to_hcd "mongodb" (Except.error e) sourceDocs insertFail =
          (⟨false, "Sync failed: " ++ e, none, none⟩, []) := rfl
      refine ⟨?_, ?_, ?_⟩
      · intro h
        rw [hq] at h
        simp at h
      · intro _
        rw [hq]
        exact ⟨rfl, rfl⟩
      · intro e' _ he
        injection he with he
        subst he
        rw [hq]
    | ok u =>
      cases u
      have hq := sync_run_eq insertFail sourceDocs
      refine ⟨?_, ?_, ?_⟩
      · intro _
        refine ⟨rfl, ?_, ?_⟩
        · exact ⟨_, by rw [hq]⟩
        · refine ⟨_, by rw [hq], ?_⟩
          rw [List.length_take]
          omega
      · intro h
        rw [hq] at h
        simp at h
      · intro e _ he
        exact absurd he (by simp)
  · have hq : sync_mongodb_to_hcd db_type hcdSetup sourceDocs insertFail =
        (⟨false, "Sync only available from MongoDB", none, none⟩, []) := by
      simp [sync_mongodb_to_hcd, hdb]
    refine ⟨?_, ?_, ?_⟩
    · intro h
      rw [hq] at h
      simp at h
    · intro _
      rw [hq]
      exact ⟨rfl, rfl⟩
    · intro e he
      exact absurd he hdb

set_option maxRecDepth 3000

/-! ## The concrete 250-record scenario, batch by batch -/

lemma mkDocsFrom_length (a n : Nat) : (mkDocsFrom a n).length = n := by
  simp [mkDocsFrom]

lemma mkDocs_split :
    mkDocs 250 = mkDocsFrom 0 100 ++ (mkDocsFrom 100 100 ++ mkDocsFrom 200 50) := by
  have h1 : List.range' 100 100 ++ List.range' 200 50 = List.range' 100 150 := by
    simpa using List.range'_append 100 100 50 1
  have h2 : List.range' 0 100 ++ List.range' 100 150 = List.range' 0 250 := by
    simpa using List.range'_append 0 100 150 1
  unfold mkDocs mkDocsFrom
  rw [List.range_eq_range', ← List.map_append, ← List.map_append, h1, h2]

lemma chunks_mkDocs250 :
    chunksOf batch_size (mkDocs 250) =
      [mkDocsFrom 0 100, mkDocsFrom 100 100, mkDocsFrom 200 50] := by
  have h1len : (mkDocsFrom 0 100).length = batch_size := by
    rw [mkDocsFrom_length]
    rfl
  have h2len : (mkDocsFrom 100 100).length = batch_size := by
    rw [mkDocsFrom_length]
    rfl
  have h3le : (mkDocsFrom 200 50).length ≤ batch_size := by
    rw [mkDocsFrom_length]
    decide
  have hne1 : mkDocsFrom 0 100 ++ (mkDocsFrom 100 100 ++ mkDocsFrom 200 50) ≠ [] := by
    apply List.ne_nil_of_length_pos
    simp [mkDocsFrom_length]
  have hne2 : mkDocsFrom 100 100 ++ mkDocsFrom 200 50 ≠ [] := by
    apply List.ne_nil_of_length_pos
    simp [mkDocsFrom_length]
  have hne3 : mkDocsFrom 200 50 ≠ [] := by
    apply List.ne_nil_of_length_pos
    simp [mkDocsFrom_length]
  rw [mkDocs_split,
    chunksOf_eq batch_size _ (by decide) hne1,
    List.take_left' h1len, List.drop_left' h1len,
    chunksOf_eq batch_size _ (by decide) hne2,
    List.take_left' h2len, List.drop_left' h2len,
    chunksOf_eq batch_size _ (by decide) hne3,
    List.take_of_length_le h3le, List.drop_eq_nil_of_le h3le, chunksOf_nil]

lemma failOn150_batch1 :
    failOnKey "150" "dup" (mkDocsFrom 0 100) = none := by
  have h : (mkDocsFrom 0 100).any (hasKey "150") = false := by decide
  simp [failOnKey, h]

lemma failOn150_batch2 :
    failOnKey "150" "dup" (mkDocsFrom 100 100) = some "dup" := by
  have h : (mkDocsFrom 100 100).any (hasKey "150") = true := by decide
  simp [failOnKey, h]

lemma failOn150_batch3 :
    failOnKey "150" "dup" (mkDocsFrom 200 50) = none := by
  have h : (mkDocsFrom 200 50).any (hasKey "150") = false := by decide
  simp [failOnKey, h]

/-! ## Claim C4 -/

lemma errEntry_mem_chunkErrors (iF : List Record → Option String)
    (cs : List (List Record)) (b : List Record) (e : String) (r : Record)
    (hb : b ∈ cs) (hif : iF b = some e) (hr : r ∈ b) :
    errEntry e r ∈ chunkErrors iF cs := by
  induction cs with
  | nil => simp at hb
  | cons c cs ih =>
    rcases List.mem_cons.mp hb with hbc | hbc
    · subst hbc
      simp only [chunkErrors, hif]
      exact List.mem_append_left _ (List.mem_map_of_mem _ hr)
    · exact List.mem_append_right _ (ih hbc)

/-- C4: when a batch's single bulk-insert raises, the whole batch fails —
every one of its records yields an error entry (built from its key and the
raised text), none is retried (each batch appears exactly once in the
issued inserts, which are the consecutive chunks of the source) and none
counts as synced (`chunkSynced` adds only succeeding batches); the report
keeps only the first 5 entries and the success flag stays true. In the
spec's concrete scenario (250 records, a duplicate in the second batch of
100), synced_count is 150, the full error list has 100 entries, the report
returns the first 5, and success is true. -/
theorem sync_batch_failure_spec (docs : List Record)
    (iF : List Record → Option String) :
    ((sync_mongodb_to_hcd "mongodb" (Except.ok ()) docs iF).2 =
      chunksOf batch_size docs) ∧
    ((sync_mongodb_to_hcd "mongodb" (Except.ok ()) docs iF).1.success = true) ∧
    ((sync_mongodb_to_hcd "mongodb" (Except.ok ()) docs iF).1.synced_count =
      some (chunkSynced iF (chunksOf batch_size docs))) ∧
    ((sync_mongodb_to_hcd "mongodb" (Except.ok ()) docs iF).1.errors =
      some ((chunkErrors iF (chunksOf batch_size docs)).take 5)) ∧
    (∀ b ∈ chunksOf batch_size docs, ∀ e, iF b = some e →
      ∀ r ∈ b, errEntry e r ∈ chunkErrors iF (chunksOf batch_size docs)) ∧
    (∀ e k r, getField r "_id" = some (Value.vStr k) →
      errEntry e r = "User " ++ k ++ ": " ++ e) ∧
    ((sync_mongodb_to_hcd "mongodb" (Except.ok ()) (mkDocs 250)
        (failOnKey "150" "dup")).1.success = true) ∧
    ((sync_mongodb_to_hcd "mongodb" (Except.ok ()) (mkDocs 250)
        (failOnKey "150" "dup")).1.synced_count = some 150) ∧
    ((sync_mongodb_to_hcd "mongodb" (Except.ok ()) (mkDocs 250)
        (failOnKey "150" "dup")).1.message =
      "Successfully synced 150 users to DataStax HCD. 100 users skipped (likely duplicates)") ∧
    ((sync_mongodb_to_hcd "mongodb" (Except.ok ()) (mkDocs 250)
        (failOnKey "150" "dup")).1.errors = some ["User 100: dup",
      "User 101: dup", "User 102: dup", "User 103: dup", "User 104: dup"]) := by
  rw [sync_run_eq]
  refine ⟨rfl, rfl, rfl, rfl, ?_, ?_, ?_, ?_, ?_, ?_⟩
  · intro b hb e hif r hr
    exact errEntry_mem_chunkErrors iF (chunksOf batch_size docs) b e r hb hif hr
  · intro e k r h
    simp only [errEntry, h, Value.pyStr]
  · rw [sync_run_eq]
  · rw [sync_run_eq, chunks_mkDocs250]
    simp only [chunkSynced, failOn150_batch1, failOn150_batch2, failOn150_batch3,
      mkDocsFrom_length]
  · rw [sync_run_eq, chunks_mkDocs250]
    have hE : chunkErrors (failOnKey "150" "dup")
        [mkDocsFrom 0 100, mkDocsFrom 100 100, mkDocsFrom 200 50] =
        (mkDocsFrom 100 100).map (errEntry "dup") := by
      simp [chunkErrors, failOn150_batch1, failOn150_batch2, failOn150_batch3]
    have hS : chunkSynced (failOnKey "150" "dup")
        [mkDocsFrom 0 100, mkDocsFrom 100 100, mkDocsFrom 200 50] = 150 := by
      simp only [chunkSynced, failOn150_batch1, failOn150_batch2, failOn150_batch3,
        mkDocsFrom_length]
    have hlen : ((mkDocsFrom 100 100).map (errEntry "dup")).length = 100 := by
      simp [mkDocsFrom_length]
    have hemp : ((mkDocsFrom 100 100).map (errEntry "dup")).isEmpty = false := by
      decide
    have hmsg : syncMessage 150 ((mkDocsFrom 100 100).map (errEntry "dup")) =
        "Successfully synced 150 users to DataStax HCD. 100 users skipped (likely duplicates)" := by
      simp only [syncMessage, hemp, Bool.false_eq_true, if_false, hlen]
      decide
    rw [hE, hS]
    exact hmsg
  · rw [sync_run_eq, chunks_mkDocs250]
    have hE : chunkErrors (failOnKey "150" "dup")
        [mkDocsFrom 0 100, mkDocsFrom 100 100, mkDocsFrom 200 50] =
        (mkDocsFrom 100 100).map (errEntry "dup") := by
      simp [chunkErrors, failOn150_batch1, failOn150_batch2, failOn150_batch3]
    have htake : List.take 5 ((mkDocsFrom 100 100).map (errEntry "dup")) =
        ["User 100: dup", "User 101: dup", "User 102: dup", "User 103: dup",
         "User 104: dup"] := by
      decide
    rw [hE]
    exact congrArg some htake

/-! ## Claim C5 -/

/-- C5: the migration partitions the source records into consecutive
batches — the issued bulk inserts flatten back to the source, every batch
is nonempty of size at most 100, and every batch except possibly the last
has size exactly 100; over 250 records with no failures it issues exactly
three bulk inserts of sizes 100, 100, 50 and reports synced_count=250 with
an empty error list; over an empty source it issues no insert and reports
success=true, synced_count=0, empty error list. -/
theorem sync_batching_spec (docs : List Record)
    (iF : List Record → Option String) :
    ((sync_mongodb_to_hcd "mongodb" (Except.ok ()) docs iF).2.flatten = docs) ∧
    (∀ c ∈ (sync_mongodb_to_hcd "mongodb" (Except.ok ()) docs iF).2,
      c ≠ [] ∧ c.length ≤ batch_size) ∧
    (∀ c ∈ ((sync_mongodb_to_hcd "mongodb" (Except.ok ()) docs iF).2).dropLast,
      c.length = batch_size) ∧
    ((sync_mongodb_to_hcd "mongodb" (Except.ok ()) (mkDocs 250) noFail).2.map
      List.length = [100, 100, 50]) ∧
    ((sync_mongodb_to_hcd "mongodb" (Except.ok ()) (mkDocs 250) noFail).1 =
      ⟨true, "Successfully synced 250 users to DataStax HCD", some 250, some []⟩) ∧
    (sync_mongodb_to_hcd "mongodb" (Except.ok ()) [] noFail =
      (⟨true, "Successfully synced 0 users to DataStax HCD", some 0, some []⟩, [])) := by
  rw [sync_run_eq]
  refine ⟨?_, ?_, ?_, ?_, ?_, ?_⟩
  · exact chunksOf_flatten docs.length docs le_rfl
  · exact chunksOf_mem_len docs.length docs le_rfl
  · exact chunksOf_dropLast_len docs.length docs le_rfl
  · rw [sync_run_eq, chunks_mkDocs250]
    simp [mkDocsFrom_length]
  · rw [sync_run_eq, chunks_mkDocs250]
    have hS : chunkSynced noFail
        [mkDocsFrom 0 100, mkDocsFrom 100 100, mkDocsFrom 200 50] = 250 := by
      simp [chunkSynced, noFail, mkDocsFrom_length]
    have hE : chunkErrors noFail
        [mkDocsFrom 0 100, mkDocsFrom 100 100, mkDocsFrom 200 50] = [] := by
      simp [chunkErrors, noFail]
    rw [hS, hE]
    decide
  · decide

/-! ## Claim C10 -/

/-- C10: on the normal path every source record is accounted for exactly
once — the number of records read equals the synced count plus the number
of error entries accumulated before truncation — and while the report
returns only the first 5 entries, the summary message reports the full
accumulated error count. -/
theorem sync_accounting_spec (docs : List Record)
    (iF : List Record → Option String) :
    (docs.length = chunkSynced iF (chunksOf batch_size docs) +
      (chunkErrors iF (chunksOf batch_size docs)).length) ∧
    ((sync_mongodb_to_hcd "mongodb" (Except.ok ()) docs iF).1.synced_count =
      some (chunkSynced iF (chunksOf batch_size docs))) ∧
    ((sync_mongodb_to_hcd "mongodb" (Except.ok ()) docs iF).1.errors =
      some ((chunkErrors iF (chunksOf batch_size docs)).take 5)) ∧
    ((sync_mongodb_to_hcd "mongodb" (Except.ok ()) docs iF).1.message =
      syncMessage (chunkSynced iF (chunksOf batch_size docs))
        (chunkErrors iF (chunksOf batch_size docs))) ∧
    (chunkErrors iF (chunksOf batch_size docs) ≠ [] →
      (sync_mongodb_to_hcd "mongodb" (Except.ok ()) docs iF).1.message =
        "Successfully synced " ++
          toString (chunkSynced iF (chunksOf batch_size docs)) ++
          " users to DataStax HCD" ++ ". " ++
          toString (chunkErrors iF (chunksOf batch_size docs)).length ++
          " users skipped (likely duplicates)") := by
  rw [sync_run_eq]
  refine ⟨?_, rfl, rfl, rfl, ?_⟩
  · have h := chunk_accounting iF (chunksOf batch_size docs)
    rw [chunksOf_flatten docs.length docs le_rfl] at h
    omega
  · intro hne
    simp only [syncMessage, List.isEmpty_iff]
    rw [if_neg hne]

end DatabaseDemo
